import Mathlib

/-!
Shallow embedding of the CSV import pipeline of `checked_csv/admin.py`
(class `CsvImportModelMixin`).

Raw CSV records, bound-form data dicts and model instances are all modelled
as string-keyed association lists of string values (pandas reads every CSV
value with `dtype='str'`).  Python dict union and `setattr` loops are
modelled up to `List.lookup`.  The external collaborators (the Django
ModelForm validator, the ORM `objects.get` lookup, the excluded-field hooks
and the store commit of `bulk_create`/`bulk_update`) are abstracted as
function fields of an `Env` record; everything else follows the source
line by line.
-/

/-- A field name of the target model. -/
abbrev FName := String

/-- A raw CSV record, a bound-form data dict, or a model instance:
a string-keyed association list of string values. -/
abbrev Row := List (FName × String)

/-- `getattr(row, f)` on a model instance. -/
def getattr (row : Row) (f : FName) : String := (List.lookup f row).getD ""

/-- Right-biased dict union `a | b` (Python): on common keys the value of `b`
wins.  Faithful up to `List.lookup` (keys shared with `b` keep `b`'s
position here, which no observation of the pipeline distinguishes). -/
def dictUnion (a b : Row) : Row :=
  a.filter (fun kv => (List.lookup kv.1 b).isNone) ++ b

/-- One entry of `modelform.errors[...].as_data()`: an error code plus, for
uniqueness errors, `params['unique_check']`. -/
structure VError where
  code : String
  unique_check : List FName
deriving DecidableEq

/-- Exceptions escaping a chunk: `Model.DoesNotExist` raised by
`objects.get` (admin.py line 257), or a store failure raised by
`bulk_create`/`bulk_update`/commit. -/
inductive ImpError where
  | doesNotExist
  | storeFatal
deriving DecidableEq

/-- Mixin configuration (class attributes of `CsvImportModelMixin`).
`unique_fields` is the resolved flat value of `get_unique_check_fields()`
as consumed by `exclude_duplication`. -/
structure Config where
  unique_fields : List FName
  max_error_rows : Nat
  is_skip_existing : Bool
  is_first_comer_priority : Bool

/-- External collaborators of the pipeline: the ModelForm validator and its
`cleaned_data`, the per-request value of `get_csv_excluded_fields_init_values`,
the ORM lookup `objects.get(**{k: record[k] for k in key_fields})`, the
`update_csv_excluded_fields` hook, and the per-chunk store commit. -/
structure Env where
  validate : Row → List VError
  cleaned : Row → Row
  csv_init : Row
  db_get : List FName → Row → Option Row
  update_excluded : Row → Row
  store_commit : Nat → List Row → List Row → Option ImpError

/-- The per-chunk working set: `new_rows`, `update_rows` and the run-wide
`errors` list (the latter survives across chunks in the source). -/
structure ChunkState where
  new_rows : List Row
  update_rows : List Row
  errors : List Row
deriving DecidableEq

/-- One committed chunk: its index and the rows passed to
`bulk_create`/`bulk_update`. -/
structure Commit where
  idx : Nat
  inserted : List Row
  updated : List Row
deriving DecidableEq

/-- Observable events of one import run. -/
inductive Event where
  | chunkProcessed (i : Nat)
  | chunkCommitted (i : Nat)
  | fileDeleted
deriving DecidableEq

/-- Result of one import run: committed chunks, reported errors, the fatal
error (if the run aborted) and the event trace. -/
structure RunResult where
  db : List Commit
  errors : List Row
  fatal : Option ImpError
  trace : List Event
deriving DecidableEq

/-- An element of the value returned by `get_unique_check_fields`: a plain
field name, or (for the `opts.unique_together` branch) one inner tuple of
the Django-normalized tuple-of-tuples. -/
inductive FieldRef where
  | name (f : FName)
  | group (fs : List FName)
deriving DecidableEq

/-- One entry of `opts.total_unique_constraints`. -/
structure UniqueConstraint where
  name : String
  fields : List FName

/-- The slice of Django's `model._meta` the mixin reads.  `unique_together`
is as Django normalizes it: always a tuple of tuples. -/
structure ModelMeta where
  app_label : String
  model_name : String
  unique_together : List (List FName)
  total_unique_constraints : List UniqueConstraint

/-- `CsvImportModelMixin.get_unique_check_fields` (admin.py 167-184).
The first argument is the class attribute `unique_check_fields`. -/
def get_unique_check_fields (unique_check_fields : List FName)
    (opts : ModelMeta) : List FieldRef :=
  if unique_check_fields ≠ [] then unique_check_fields.map .name
  else if opts.unique_together ≠ [] then opts.unique_together.map .group
  else
    match opts.total_unique_constraints with
    | [] => []
    | c0 :: cs =>
      match (c0 :: cs).filter (fun c => c.name == opts.model_name ++ "_unique") with
      | c :: _ => c.fields.map .name
      | [] => c0.fields.map .name

/-- Python's `str.lower()`, written character by character so that it
evaluates (`String.toLower` does not reduce in the kernel). -/
def pyLower (s : String) : String := String.mk (s.data.map Char.toLower)

/-- `CsvImportModelMixin.has_import_permission` (admin.py 124-134), with the
request abstracted to the `has_perm` predicate of its user. -/
def has_import_permission (opts : ModelMeta) (has_perm : String → Bool) : Bool :=
  if pyLower opts.model_name == "user" || pyLower opts.model_name == "group" then
    has_perm (opts.app_label ++ "." ++ "add" ++ "_" ++ opts.model_name)
  else
    has_perm (opts.app_label ++ "." ++ "import" ++ "_" ++ opts.model_name)

/-- Error codes treated as uniqueness violations (admin.py 218, 223). -/
def isUniqueCode (c : String) : Bool := c == "unique" || c == "unique_together"

/-- `has_nonunique_violation` (admin.py 214-220): all error entries whose
code is not a uniqueness violation; the caller tests its truthiness. -/
def has_nonunique_violation (errs : List VError) : List VError :=
  errs.filter (fun e => !isUniqueCode e.code)

/-- `get_unique_constraint_violation_fields` (admin.py 222-227): the
`unique_check` params of the first uniqueness error.  In its calling
context such an error always exists (otherwise Python's `next()` would
raise StopIteration), so the `none` branch is unreachable there. -/
def get_unique_constraint_violation_fields (errs : List VError) : List FName :=
  match errs.find? (fun e => isUniqueCode e.code) with
  | some e => e.unique_check
  | none => []

/-- `add_error` (admin.py 242-244): append only while below
`max_error_rows`. -/
def add_error (cfg : Config) (errors : List Row) (form : Row) : List Row :=
  if errors.length < cfg.max_error_rows then errors ++ [form] else errors

/-- `exclude_duplication` (admin.py 229-239): if no unique fields, return
the imported row; otherwise `reduce` the sublist of already-accepted rows
whose unique-field values all equal the imported row's (`not any(DeepDiff…)`,
which for string values is plain equality), with initializer `imported` and
the combining function keeping the accumulator iff
`is_first_comer_priority`. -/
def exclude_duplication (cfg : Config) (rows : List Row) (imported : Row) : Row :=
  if cfg.unique_fields.isEmpty then imported
  else
    (rows.filter (fun row =>
        cfg.unique_fields.all (fun f => getattr row f == getattr imported f))).foldl
      (fun p n => if cfg.is_first_comer_priority then p else n) imported

/-- The `setattr` loop over `modelform.cleaned_data.items()`
(admin.py 259-260). -/
def setattrs (row cleaned : Row) : Row := dictUnion row cleaned

/-- `read_record` (admin.py 241-262).  Returns the updated three lists and
`some e` when the Python code would raise (`objects.get` not finding the
conflicting stored record). -/
def read_record (cfg : Config) (env : Env) (s : ChunkState) (record : Row) :
    ChunkState × Option ImpError :=
  let data := dictUnion record env.csv_init
  let errs := env.validate data
  if errs.isEmpty then
    let row := dictUnion (env.cleaned data) env.csv_init
    ({ s with new_rows := s.new_rows ++ [exclude_duplication cfg s.new_rows row] }, none)
  else if !(has_nonunique_violation errs).isEmpty then
    ({ s with errors := add_error cfg s.errors data }, none)
  else if !cfg.is_skip_existing then
    match env.db_get (get_unique_constraint_violation_fields errs) record with
    | none => (s, some ImpError.doesNotExist)
    | some dbrow =>
      let row := env.update_excluded (setattrs dbrow (env.cleaned data))
      ({ s with update_rows := s.update_rows ++ [exclude_duplication cfg s.update_rows row] }, none)
  else (s, none)

/-- The `for record in chunk.to_dict('record')` loop (admin.py 314-315):
threads the state through `read_record`, stopping at the first raise. -/
def process_records (cfg : Config) (env : Env) :
    ChunkState → List Row → ChunkState × Option ImpError
  | s, [] => (s, none)
  | s, r :: rs =>
    match read_record cfg env s r with
    | (s', none) => process_records cfg env s' rs
    | (s', some e) => (s', some e)

/-- The chunk loop of `import_action` (admin.py 308-325): each chunk gets
fresh `new_rows`/`update_rows`, is processed inside `transaction.atomic()`
and committed via the bulk operations; a raise inside a chunk rolls that
chunk back (the `db` accumulator is not extended) and aborts the run,
leaving earlier commits in place. -/
def run_chunks (cfg : Config) (env : Env) :
    Nat → List (List Row) → List Row → List Commit → RunResult
  | _, [], errs, db => ⟨db, errs, none, []⟩
  | i, chunk :: rest, errs, db =>
    match process_records cfg env ⟨[], [], errs⟩ chunk with
    | (st, some e) => ⟨db, st.errors, some e, []⟩
    | (st, none) =>
      if st.new_rows.isEmpty && st.update_rows.isEmpty then
        let r := run_chunks cfg env (i + 1) rest st.errors
          (db ++ [⟨i, st.new_rows, st.update_rows⟩])
        { r with trace := Event.chunkProcessed i :: Event.chunkCommitted i :: r.trace }
      else
        match env.store_commit i st.new_rows st.update_rows with
        | some e => ⟨db, st.errors, some e, [Event.chunkProcessed i]⟩
        | none =>
          let r := run_chunks cfg env (i + 1) rest st.errors
            (db ++ [⟨i, st.new_rows, st.update_rows⟩])
          { r with trace := Event.chunkProcessed i :: Event.chunkCommitted i :: r.trace }

/-- `import_action`'s `try`/`except`/`finally` (admin.py 306-327): the chunk
loop runs, and whether it completes or raises, `fs.delete(file_name)` runs
exactly once afterwards, before the result or the exception leaves the
function. -/
def import_action (cfg : Config) (env : Env) (chunks : List (List Row)) : RunResult :=
  let r := run_chunks cfg env 0 chunks [] []
  { r with trace := r.trace ++ [Event.fileDeleted] }

/-- Fuel-driven helper for `chunksOf`; `rows.length` fuel suffices for any
chunk size ≥ 1. -/
def chunksOfAux (n : Nat) : Nat → List Row → List (List Row)
  | 0, _ => []
  | _, [] => []
  | fuel + 1, r :: rs => (r :: rs).take n :: chunksOfAux n fuel ((r :: rs).drop n)

/-- Modelled from the spec: the chunked CSV reader (`pd.read_csv` with
`chunksize`, an external collaborator; spec §6 `openChunkedReader`):
successive bounded-size slices preserving file row order. -/
def chunksOf (n : Nat) (rows : List Row) : List (List Row) :=
  chunksOfAux n rows.length rows

/-! ### Concrete fixtures used by counterexamples and witnesses -/

/-- Default-flavoured config: unique key `("k")`, first-comer priority. -/
def cfgFirst : Config := ⟨["k"], 1000, false, true⟩

/-- Same but `is_first_comer_priority = False`. -/
def cfgLast : Config := ⟨["k"], 1000, false, false⟩

/-- Same as `cfgFirst` but `is_skip_existing = True`. -/
def cfgSkip : Config := ⟨["k"], 1000, true, true⟩

/-- `max_error_rows = 1`. -/
def cfgCap1 : Config := ⟨["k"], 1, false, true⟩

def rowA : Row := [("k", "1"), ("n", "A")]
def rowB : Row := [("k", "1"), ("n", "B")]
def rowC : Row := [("k", "2"), ("n", "C")]

/-- Everything validates, hooks are identities, the store never fails. -/
def envValid : Env :=
  { validate := fun _ => [], cleaned := fun d => d, csv_init := [],
    db_get := fun _ _ => none, update_excluded := fun r => r,
    store_commit := fun _ _ _ => none }

/-- A pure uniqueness violation on field `k`. -/
def uniqueKErr : VError := ⟨"unique", ["k"]⟩

/-- Every record fails validation with only the uniqueness error, and the
conflicting stored record is found. -/
def envUnique : Env :=
  { envValid with
    validate := fun _ => [uniqueKErr],
    db_get := fun _ r => some [("k", getattr r "k"), ("n", "old")] }

/-- Every record fails validation with a non-uniqueness error. -/
def envBad : Env :=
  { envValid with validate := fun _ => [⟨"required", []⟩] }

/-- Records with `k = "1"` hit a uniqueness violation whose stored
counterpart cannot be located; other records are valid. -/
def envNotFound : Env :=
  { envValid with
    validate := fun d => if getattr d "k" == "1" then [uniqueKErr] else [] }

/-- The store commit of chunk index 1 fails fatally; others succeed. -/
def envC3 : Env :=
  { envValid with
    store_commit := fun i _ _ => if i == 1 then some ImpError.storeFatal else none }

def c3row1 : Row := [("k", "1")]
def c3row2 : Row := [("k", "2")]
def c3row3 : Row := [("k", "3")]
def c3row4 : Row := [("k", "4")]
def c3row5 : Row := [("k", "5")]

/-- The init-values hook supplies field `u`. -/
def envInit : Env := { envValid with csv_init := [("u", "sys")] }

/-- A model with a normalized `unique_together` and a named constraint. -/
def metaUT : ModelMeta := ⟨"app", "thing", [["a", "b"]], [⟨"thing_unique", ["x", "y"]⟩]⟩

/-- No `unique_together`; constraints include one named `thing_unique`. -/
def metaNamed : ModelMeta :=
  ⟨"app", "thing", [], [⟨"other", ["p", "q"]⟩, ⟨"thing_unique", ["x", "y"]⟩]⟩

/-- No `unique_together`; no constraint carries the conventional name. -/
def metaFirstC : ModelMeta := ⟨"app", "thing", [], [⟨"c1", ["p"]⟩, ⟨"c2", ["q"]⟩]⟩

/-- No uniqueness information at all. -/
def metaNone : ModelMeta := ⟨"app", "thing", [], []⟩

/-! ### Helper lemmas -/

theorem foldl_keep_acc (l : List Row) (a : Row) :
    l.foldl (fun p _ => p) a = a := by
  induction l generalizing a with
  | nil => rfl
  | cons x xs ih => exact ih a

/-- With `is_first_comer_priority = True` the `reduce` keeps its initializer,
so `exclude_duplication` returns the imported row unconditionally: in-chunk
deduplication is a no-op. -/
theorem exclude_duplication_first_comer_noop (cfg : Config) (rows : List Row)
    (imported : Row) (h : cfg.is_first_comer_priority = true) :
    exclude_duplication cfg rows imported = imported := by
  have hfun : (fun (p n : Row) => if cfg.is_first_comer_priority then p else n)
      = fun (p _ : Row) => p := by
    funext p n
    simp [h]
  unfold exclude_duplication
  rw [hfun]
  split
  · rfl
  · exact foldl_keep_acc _ _

theorem lookup_dictUnion_right (a b : Row) (k : FName) (v : String)
    (h : List.lookup k b = some v) :
    List.lookup k (dictUnion a b) = some v := by
  induction a with
  | nil => simpa [dictUnion]
  | cons kv a ih =>
    cases hp : List.lookup kv.1 b with
    | some w =>
      have he : dictUnion (kv :: a) b = dictUnion a b := by
        simp [dictUnion, List.filter_cons, hp]
      rw [he]; exact ih
    | none =>
      have hk : (k == kv.1) = false := by
        refine beq_eq_false_iff_ne.mpr ?_
        intro hkk
        rw [hkk, hp] at h
        exact Option.noConfusion h
      have he : dictUnion (kv :: a) b = kv :: dictUnion a b := by
        simp [dictUnion, List.filter_cons, hp]
      rw [he]
      simp only [List.lookup, hk]
      exact ih

theorem read_record_valid (cfg : Config) (env : Env) (s : ChunkState) (r : Row)
    (hv : env.validate (dictUnion r env.csv_init) = []) :
    read_record cfg env s r =
      ({ s with new_rows := s.new_rows ++
          [exclude_duplication cfg s.new_rows
            (dictUnion (env.cleaned (dictUnion r env.csv_init)) env.csv_init)] },
       none) := by
  simp [read_record, hv]

theorem read_record_nonunique (cfg : Config) (env : Env) (s : ChunkState) (r : Row)
    (hnu : has_nonunique_violation (env.validate (dictUnion r env.csv_init)) ≠ []) :
    read_record cfg env s r =
      ({ s with errors := add_error cfg s.errors (dictUnion r env.csv_init) }, none) := by
  have hv : env.validate (dictUnion r env.csv_init) ≠ [] := by
    intro h
    exact hnu (by simp [has_nonunique_violation, h])
  simp [read_record, hv, hnu]

theorem read_record_unique_found (cfg : Config) (env : Env) (s : ChunkState) (r : Row)
    (dbrow : Row)
    (hv : env.validate (dictUnion r env.csv_init) ≠ [])
    (hnu : has_nonunique_violation (env.validate (dictUnion r env.csv_init)) = [])
    (hskip : cfg.is_skip_existing = false)
    (hdb : env.db_get (get_unique_constraint_violation_fields
        (env.validate (dictUnion r env.csv_init))) r = some dbrow) :
    read_record cfg env s r =
      ({ s with update_rows := s.update_rows ++
          [exclude_duplication cfg s.update_rows
            (env.update_excluded (setattrs dbrow
              (env.cleaned (dictUnion r env.csv_init))))] }, none) := by
  simp [read_record, hv, hnu, hskip, hdb]

theorem read_record_unique_notfound (cfg : Config) (env : Env) (s : ChunkState) (r : Row)
    (hv : env.validate (dictUnion r env.csv_init) ≠ [])
    (hnu : has_nonunique_violation (env.validate (dictUnion r env.csv_init)) = [])
    (hskip : cfg.is_skip_existing = false)
    (hdb : env.db_get (get_unique_constraint_violation_fields
        (env.validate (dictUnion r env.csv_init))) r = none) :
    read_record cfg env s r = (s, some ImpError.doesNotExist) := by
  simp [read_record, hv, hnu, hskip, hdb]

theorem read_record_unique_skip (cfg : Config) (env : Env) (s : ChunkState) (r : Row)
    (hv : env.validate (dictUnion r env.csv_init) ≠ [])
    (hnu : has_nonunique_violation (env.validate (dictUnion r env.csv_init)) = [])
    (hskip : cfg.is_skip_existing = true) :
    read_record cfg env s r = (s, none) := by
  simp [read_record, hv, hnu, hskip]

theorem add_error_length (cfg : Config) (es : List Row) (f : Row) :
    (add_error cfg es f).length =
      if es.length < cfg.max_error_rows then es.length + 1 else es.length := by
  unfold add_error
  split <;> simp_all

theorem run_chunks_no_delete (cfg : Config) (env : Env) :
    ∀ (chunks : List (List Row)) (i : Nat) (errs : List Row) (db : List Commit),
      Event.fileDeleted ∉ (run_chunks cfg env i chunks errs db).trace := by
  intro chunks
  induction chunks with
  | nil => intro i errs db; simp [run_chunks]
  | cons c rest ih =>
    intro i errs db
    rcases hp : process_records cfg env ⟨[], [], errs⟩ c with ⟨st, e⟩
    cases e with
    | some e => simp [run_chunks, hp]
    | none =>
      simp only [run_chunks, hp]
      split
      · simpa using ih (i + 1) st.errors (db ++ [⟨i, st.new_rows, st.update_rows⟩])
      · cases hc : env.store_commit i st.new_rows st.update_rows with
        | some e => simp [hc]
        | none =>
          simp only [hc]
          simpa using ih (i + 1) st.errors (db ++ [⟨i, st.new_rows, st.update_rows⟩])

/-! ### Claim theorems -/

/-- C1: the claim says that for two rows of one chunk with equal
uniqueness-key values, first-comer priority retains exactly the first row
and last-comer priority retains exactly the second.  The code does neither:
with `is_first_comer_priority=True` the `reduce` lambda always keeps its
initializer (the imported row), so both duplicates are appended
(`new_rows = [A, B]`); with `False` the earlier matching row is returned
and appended again (`new_rows = [A, A]`), discarding the second row.  This
theorem evaluates `read_record`'s chunk loop at the failing input. -/
theorem c1_dedup_retains_wrong_rows :
    process_records cfgFirst envValid ⟨[], [], []⟩ [rowA, rowB]
        = (⟨[rowA, rowB], [], []⟩, none)
    ∧ process_records cfgLast envValid ⟨[], [], []⟩ [rowA, rowB]
        = (⟨[rowA, rowA], [], []⟩, none) := by
  exact ⟨by decide, by decide⟩

/-- C2 counterexample: with `is_skip_existing = True` a row whose validation
fails only on a uniqueness constraint is appended to none of the three
lists even though the error cap is not reached, so the partition claimed
"for every configuration, including is_skip_existing=True" fails. -/
theorem c2_skip_existing_counterexample :
    read_record cfgSkip envUnique ⟨[], [], []⟩ rowA = (⟨[], [], []⟩, none)
    ∧ (⟨[], [], []⟩ : ChunkState).errors.length < cfgSkip.max_error_rows
    ∧ cfgSkip.is_skip_existing = true := by
  exact ⟨by decide, by decide, rfl⟩

/-- C2 (amended): processing one record appends exactly one entry to exactly
one of `new_rows`, `update_rows`, `errors` — except that the state is left
entirely unchanged when the record is an error row arriving at or above
`max_error_rows`, or a uniqueness-only row under `is_skip_existing=True`;
and a uniqueness-only row whose stored counterpart cannot be found raises,
aborting processing. -/
theorem c2_row_partition (cfg : Config) (env : Env) (s : ChunkState) (r : Row) :
    (∃ x, read_record cfg env s r = ({ s with new_rows := s.new_rows ++ [x] }, none))
    ∨ (∃ x, read_record cfg env s r = ({ s with update_rows := s.update_rows ++ [x] }, none))
    ∨ (∃ x, read_record cfg env s r = ({ s with errors := s.errors ++ [x] }, none))
    ∨ (read_record cfg env s r = (s, none)
        ∧ (cfg.max_error_rows ≤ s.errors.length ∨ cfg.is_skip_existing = true))
    ∨ read_record cfg env s r = (s, some ImpError.doesNotExist) := by
  by_cases hv : env.validate (dictUnion r env.csv_init) = []
  · exact Or.inl ⟨_, read_record_valid cfg env s r hv⟩
  · by_cases hnu : has_nonunique_violation (env.validate (dictUnion r env.csv_init)) = []
    · cases hskip : cfg.is_skip_existing with
      | true =>
        exact Or.inr (Or.inr (Or.inr (Or.inl
          ⟨read_record_unique_skip cfg env s r hv hnu hskip, Or.inr rfl⟩)))
      | false =>
        cases hdb : env.db_get (get_unique_constraint_violation_fields
            (env.validate (dictUnion r env.csv_init))) r with
        | none =>
          exact Or.inr (Or.inr (Or.inr (Or.inr
            (read_record_unique_notfound cfg env s r hv hnu hskip hdb))))
        | some dbrow =>
          exact Or.inr (Or.inl ⟨_, read_record_unique_found cfg env s r dbrow hv hnu hskip hdb⟩)
    · by_cases hcap : s.errors.length < cfg.max_error_rows
      · refine Or.inr (Or.inr (Or.inl ⟨dictUnion r env.csv_init, ?_⟩))
        rw [read_record_nonunique cfg env s r hnu]
        unfold add_error
        rw [if_pos hcap]
      · refine Or.inr (Or.inr (Or.inr (Or.inl ⟨?_, Or.inl (Nat.le_of_not_lt hcap)⟩)))
        rw [read_record_nonunique cfg env s r hnu]
        unfold add_error
        rw [if_neg hcap]

/-- C7: the claim says `get_unique_check_fields` resolves, by precedence,
the explicit key, else `unique_together`, else the constraint named
`<model>_unique`, else the first constraint, else `()` — and always as a
flat tuple of field names.  The precedence holds, but Django normalizes
`opts.unique_together` to a tuple of tuples and line 174 returns it as-is,
so on that branch the result is nested, not flat (downstream
`getattr(row, f)` would then be called with a tuple).  This theorem
evaluates all the branches, exhibiting the nested result. -/
theorem c7_unique_key_resolution :
    get_unique_check_fields ["e1", "e2"] metaUT = [FieldRef.name "e1", FieldRef.name "e2"]
    ∧ get_unique_check_fields [] metaUT = [FieldRef.group ["a", "b"]]
    ∧ (∀ f, FieldRef.name f ∉ get_unique_check_fields [] metaUT)
    ∧ get_unique_check_fields [] metaNamed = [FieldRef.name "x", FieldRef.name "y"]
    ∧ get_unique_check_fields [] metaFirstC = [FieldRef.name "p"]
    ∧ get_unique_check_fields [] metaNone = [] := by
  refine ⟨by decide, by decide, ?_, by decide, by decide, by decide⟩
  intro f
  intro hmem
  have : get_unique_check_fields [] metaUT = [FieldRef.group ["a", "b"]] := by decide
  rw [this] at hmem
  simp at hmem

/-- C8: on every run — normal completion, completion with row errors, or a
fatal abort — the temporary source file is deleted exactly once, after all
processing, before the run returns or propagates (`finally` at
admin.py 326-327). -/
theorem c8_temp_file_deleted_once (cfg : Config) (env : Env) (chunks : List (List Row)) :
    (import_action cfg env chunks).trace.count Event.fileDeleted = 1
    ∧ (import_action cfg env chunks).trace.getLast? = some Event.fileDeleted := by
  constructor
  · unfold import_action
    rw [List.count_append]
    rw [List.count_eq_zero.mpr (run_chunks_no_delete cfg env chunks 0 [] [])]
    rfl
  · unfold import_action
    exact List.getLast?_concat _

/-- C3: if chunk `i`'s commit fails with a store error, the run returns with
that error, the previously committed chunks (`db`) untouched — no
cross-chunk rollback — and the remaining chunks never examined (the result
does not depend on `rest`); and a 5-row file with `chunk_size = 2` yields
exactly 3 chunks of sizes 2, 2, 1, each committed in its own
transaction. -/
theorem c3_commit_failure_aborts (cfg : Config) (env : Env) (i : Nat) (db : List Commit)
    (errs : List Row) (c : List Row) (rest rest' : List (List Row)) (st : ChunkState)
    (e : ImpError)
    (hp : process_records cfg env ⟨[], [], errs⟩ c = (st, none))
    (hne : (st.new_rows.isEmpty && st.update_rows.isEmpty) = false)
    (hc : env.store_commit i st.new_rows st.update_rows = some e) :
    run_chunks cfg env i (c :: rest) errs db
        = ⟨db, st.errors, some e, [Event.chunkProcessed i]⟩
    ∧ run_chunks cfg env i (c :: rest) errs db = run_chunks cfg env i (c :: rest') errs db
    ∧ ∀ r1 r2 r3 r4 r5 : Row,
        (chunksOf 2 [r1, r2, r3, r4, r5]).map List.length = [2, 2, 1] := by
  have hcond : ¬((st.new_rows.isEmpty && st.update_rows.isEmpty) = true) := by
    simp [hne]
  have key : ∀ rest0 : List (List Row),
      run_chunks cfg env i (c :: rest0) errs db
        = ⟨db, st.errors, some e, [Event.chunkProcessed i]⟩ := by
    intro rest0
    simp only [run_chunks, hp]
    rw [if_neg hcond, hc]
  exact ⟨key rest, (key rest).trans (key rest').symm, fun r1 r2 r3 r4 r5 => rfl⟩

/-- C3 witness: concrete 5 rows, `chunk_size = 2`; chunk 0 is committed,
chunk 1's commit fails fatally, chunk 2 is never attempted and chunk 0's
commit survives. -/
theorem c3_commit_failure_aborts_witness :
    run_chunks cfgFirst envC3 1 [[c3row3, c3row4], [c3row5]] [] [⟨0, [c3row1, c3row2], []⟩]
        = ⟨[⟨0, [c3row1, c3row2], []⟩], [], some ImpError.storeFatal, [Event.chunkProcessed 1]⟩
    ∧ (chunksOf 2 [c3row1, c3row2, c3row3, c3row4, c3row5]).map List.length = [2, 2, 1] := by
  have h := c3_commit_failure_aborts cfgFirst envC3 1 [⟨0, [c3row1, c3row2], []⟩] []
      [c3row3, c3row4] [[c3row5]] [[c3row5]] ⟨[c3row3, c3row4], [], []⟩ ImpError.storeFatal
      (by decide) (by decide) (by decide)
  exact ⟨h.1, h.2.2 c3row1 c3row2 c3row3 c3row4 c3row5⟩

/-- C4: a record whose validation errors are uniqueness violations only is
routed to the update path (appended to `update_rows` after lookup of the
conflicting stored record, `new_rows` and `errors` untouched) — silently
skipped instead when `is_skip_existing` is set; a record with any
non-uniqueness error is routed to the error list (`add_error`) and is
excluded from both `new_rows` and `update_rows`. -/
theorem c4_uniqueness_routing (cfg : Config) (env : Env) (s : ChunkState) (r : Row) :
    (env.validate (dictUnion r env.csv_init) ≠ [] →
     has_nonunique_violation (env.validate (dictUnion r env.csv_init)) = [] →
       (∀ dbrow, cfg.is_skip_existing = false →
          env.db_get (get_unique_constraint_violation_fields
              (env.validate (dictUnion r env.csv_init))) r = some dbrow →
          read_record cfg env s r =
            ({ s with update_rows := s.update_rows ++
                [exclude_duplication cfg s.update_rows
                  (env.update_excluded (setattrs dbrow
                    (env.cleaned (dictUnion r env.csv_init))))] }, none))
       ∧ (cfg.is_skip_existing = true → read_record cfg env s r = (s, none)))
    ∧ (has_nonunique_violation (env.validate (dictUnion r env.csv_init)) ≠ [] →
        read_record cfg env s r =
          ({ s with errors := add_error cfg s.errors (dictUnion r env.csv_init) }, none)) := by
  constructor
  · intro hv hnu
    exact ⟨fun dbrow hskip hdb => read_record_unique_found cfg env s r dbrow hv hnu hskip hdb,
           fun hskip => read_record_unique_skip cfg env s r hv hnu hskip⟩
  · intro hnu
    exact read_record_nonunique cfg env s r hnu

/-- C4 witness: a uniqueness-only record with the stored record found is
appended to `update_rows` only. -/
theorem c4_uniqueness_routing_witness :
    read_record cfgFirst envUnique ⟨[], [], []⟩ rowA
      = (⟨[], [[("k", "1"), ("n", "A")]], []⟩, none) := by
  have h := ((c4_uniqueness_routing cfgFirst envUnique ⟨[], [], []⟩ rowA).1
      (by decide) (by decide)).1 [("k", "1"), ("n", "old")] rfl (by decide)
  exact h.trans (by decide)

/-- C5 counterexample: the claim says a uniqueness-only row whose
conflicting stored record cannot be located is fatal *for that row only*,
with the remaining rows still processed.  In the code `objects.get` raises
`DoesNotExist`, which propagates out of the chunk loop and is re-raised:
here the valid second chunk (`rowC`) is never processed and nothing is
committed. -/
theorem c5_remaining_rows_not_processed :
    import_action cfgFirst envNotFound [[rowA], [rowC]]
      = ⟨[], [], some ImpError.doesNotExist, [Event.fileDeleted]⟩ := by
  decide

/-- C5 (amended): when the conflicting stored record cannot be located, the
row is not silently skipped — `read_record` raises a not-found error — but
the error is fatal for the whole run, not just for that row: the raise
propagates out of the chunk loop, the current chunk is rolled back and no
further chunk is processed. -/
theorem c5_lookup_failure_fatal_for_run (cfg : Config) (env : Env) :
    (∀ (s : ChunkState) (r : Row),
      env.validate (dictUnion r env.csv_init) ≠ [] →
      has_nonunique_violation (env.validate (dictUnion r env.csv_init)) = [] →
      cfg.is_skip_existing = false →
      env.db_get (get_unique_constraint_violation_fields
          (env.validate (dictUnion r env.csv_init))) r = none →
      read_record cfg env s r = (s, some ImpError.doesNotExist))
    ∧ (∀ (i : Nat) (c : List Row) (rest : List (List Row)) (errs : List Row)
        (db : List Commit) (st : ChunkState) (e : ImpError),
        process_records cfg env ⟨[], [], errs⟩ c = (st, some e) →
        run_chunks cfg env i (c :: rest) errs db = ⟨db, st.errors, some e, []⟩) := by
  constructor
  · intro s r hv hnu hskip hdb
    exact read_record_unique_notfound cfg env s r hv hnu hskip hdb
  · intro i c rest errs db st e hp
    simp [run_chunks, hp]

/-- C5 witness: the concrete not-found row raises and the surrounding run
aborts with nothing committed. -/
theorem c5_lookup_failure_fatal_for_run_witness :
    read_record cfgFirst envNotFound ⟨[], [], []⟩ rowA
        = (⟨[], [], []⟩, some ImpError.doesNotExist)
    ∧ run_chunks cfgFirst envNotFound 0 [[rowA], [rowC]] [] []
        = ⟨[], [], some ImpError.doesNotExist, []⟩ := by
  have h := c5_lookup_failure_fatal_for_run cfgFirst envNotFound
  exact ⟨h.1 ⟨[], [], []⟩ rowA (by decide) (by decide) rfl (by decide),
         h.2 0 [rowA] [[rowC]] [] [] ⟨[], [], []⟩ ImpError.doesNotExist (by decide)⟩

/-- C6: when every record of a chunk is on the error path, none reaches
`new_rows` or `update_rows`, and the error list grows only up to
`max_error_rows`: its final length is the old length capped at
`max_error_rows` (so with an empty starting list and more than
`max_error_rows` invalid rows, exactly `max_error_rows` errors are
recorded while every invalid row is excluded from insert and update). -/
theorem c6_error_cap (cfg : Config) (env : Env) (chunk : List Row) :
    ∀ s : ChunkState,
      (∀ r ∈ chunk,
        has_nonunique_violation (env.validate (dictUnion r env.csv_init)) ≠ []) →
      (process_records cfg env s chunk).2 = none
      ∧ (process_records cfg env s chunk).1.new_rows = s.new_rows
      ∧ (process_records cfg env s chunk).1.update_rows = s.update_rows
      ∧ (process_records cfg env s chunk).1.errors.length
          = max s.errors.length (min cfg.max_error_rows (s.errors.length + chunk.length)) := by
  induction chunk with
  | nil =>
    intro s _
    refine ⟨rfl, rfl, rfl, ?_⟩
    simp only [process_records, List.length_nil]
    omega
  | cons r rs ih =>
    intro s hall
    have hr := hall r (List.mem_cons_self r rs)
    have hrest : ∀ r' ∈ rs,
        has_nonunique_violation (env.validate (dictUnion r' env.csv_init)) ≠ [] :=
      fun r' hm => hall r' (List.mem_cons_of_mem r hm)
    have hred := read_record_nonunique cfg env s r hr
    have hs' := ih { s with errors := add_error cfg s.errors (dictUnion r env.csv_init) } hrest
    have hstep : process_records cfg env s (r :: rs)
        = process_records cfg env
            { s with errors := add_error cfg s.errors (dictUnion r env.csv_init) } rs := by
      simp [process_records, hred]
    rw [hstep]
    refine ⟨hs'.1, hs'.2.1, hs'.2.2.1, ?_⟩
    rw [hs'.2.2.2]
    have hlen := add_error_length cfg s.errors (dictUnion r env.csv_init)
    show max (add_error cfg s.errors (dictUnion r env.csv_init)).length
        (min cfg.max_error_rows
          ((add_error cfg s.errors (dictUnion r env.csv_init)).length + rs.length))
      = max s.errors.length (min cfg.max_error_rows (s.errors.length + (r :: rs).length))
    rw [List.length_cons]
    by_cases hlt : s.errors.length < cfg.max_error_rows
    · rw [if_pos hlt] at hlen
      rw [hlen]
      omega
    · rw [if_neg hlt] at hlen
      rw [hlen]
      omega

/-- C6 witness: `max_error_rows = 1` with 3 invalid rows in one chunk gives
exactly 1 recorded error and all 3 rows excluded from both lists. -/
theorem c6_error_cap_witness :
    (process_records cfgCap1 envBad ⟨[], [], []⟩ [rowA, rowB, rowC]).1.errors.length = 1
    ∧ (process_records cfgCap1 envBad ⟨[], [], []⟩ [rowA, rowB, rowC]).1.new_rows = []
    ∧ (process_records cfgCap1 envBad ⟨[], [], []⟩ [rowA, rowB, rowC]).1.update_rows = [] := by
  have h := c6_error_cap cfgCap1 envBad [rowA, rowB, rowC] ⟨[], [], []⟩ (by decide)
  exact ⟨h.2.2.2.trans (by decide), h.2.1, h.2.2.1⟩

/-- C9: for models whose lowercased name is `user` or `group`,
`has_import_permission` checks the standard add permission
`<app_label>.add_<model_name>`; for every other model it checks
`<app_label>.import_<model_name>`. -/
theorem c9_user_group_use_add_permission (opts : ModelMeta) (p : String → Bool) :
    ((pyLower opts.model_name = "user" ∨ pyLower opts.model_name = "group") →
      has_import_permission opts p
        = p (opts.app_label ++ "." ++ "add" ++ "_" ++ opts.model_name))
    ∧ (pyLower opts.model_name ≠ "user" → pyLower opts.model_name ≠ "group" →
      has_import_permission opts p
        = p (opts.app_label ++ "." ++ "import" ++ "_" ++ opts.model_name)) := by
  constructor
  · intro h
    unfold has_import_permission
    rcases h with h | h <;> simp [h]
  · intro h1 h2
    unfold has_import_permission
    simp [h1, h2]

/-- C9 witness: the `user` model is checked against `auth.add_user`; an
ordinary model is checked against its `import_` permission. -/
theorem c9_user_group_use_add_permission_witness :
    has_import_permission ⟨"auth", "user", [], []⟩ (fun s => s == "auth.add_user") = true
    ∧ has_import_permission ⟨"myapp", "book", [], []⟩
        (fun s => s == "myapp.import_book") = true := by
  constructor
  · have h := (c9_user_group_use_add_permission ⟨"auth", "user", [], []⟩
        (fun s => s == "auth.add_user")).1 (Or.inl (by decide))
    exact h.trans (by decide)
  · have h := (c9_user_group_use_add_permission ⟨"myapp", "book", [], []⟩
        (fun s => s == "myapp.import_book")).2 (by decide) (by decide)
    exact h.trans (by decide)

/-- C10: a key supplied by the `get_csv_excluded_fields_init_values` hook
overrides the CSV-supplied value under the right-biased dict union, both in
the record handed to the ModelForm (`dictUnion record env.csv_init`, as
bound in `read_record`) and in the constructor arguments of a newly
inserted instance (`dictUnion (env.cleaned data) env.csv_init`). -/
theorem c10_init_values_override (env : Env) (r : Row) (k : FName) (v : String)
    (h : List.lookup k env.csv_init = some v) :
    List.lookup k (dictUnion r env.csv_init) = some v
    ∧ List.lookup k
        (dictUnion (env.cleaned (dictUnion r env.csv_init)) env.csv_init) = some v :=
  ⟨lookup_dictUnion_right r env.csv_init k v h,
   lookup_dictUnion_right _ env.csv_init k v h⟩

/-- C10 witness: the hook value `sys` for key `u` wins over the CSV value
`csv` in both places. -/
theorem c10_init_values_override_witness :
    List.lookup "u" (dictUnion [("u", "csv"), ("k", "1")] envInit.csv_init) = some "sys"
    ∧ List.lookup "u"
        (dictUnion (envInit.cleaned (dictUnion [("u", "csv"), ("k", "1")] envInit.csv_init))
          envInit.csv_init) = some "sys" :=
  c10_init_values_override envInit [("u", "csv"), ("k", "1")] "u" "sys" (by decide)
